import Mathlib

/-!
Verification of the Mind Mate chatbot's retrieval pipeline.

This file gives a shallow embedding of the Python sources
(`backend/retriever.py`, `backend/context_manager.py`, `backend/metrics.py`,
`api/app.py`) and proves the claimed properties of the retrieval ranker,
confidence estimation, context accumulator, metrics timers and the chat
endpoint's fallback behaviour.

Modelling conventions:
- Python floats are modelled as exact rationals (`ℚ`).
- Arithmetic on scores is written with the kernel-computable helpers
  `qSub`, `qMul`, `qMin`, `qMax` (built from `mkRat`), each proved equal to
  the corresponding Mathlib operation on `ℚ`, so that concrete runs of the
  embedded code can be checked by `decide`.
- Python's stable `list.sort` / `sorted` is modelled by `List.insertionSort`,
  which is a stable sort and hence computes the same list.
- Wall-clock readings (`time.time()`, `datetime.now()`) are passed in as
  explicit rational arguments; timestamps carried only for display are
  dropped from the records.
- Chroma query replies (`vector_results`) are modelled by `QueryResult`
  with `Option` fields: `none` models a `None` entry, and Python's
  truthiness test on a list is an emptiness test.
-/

/-- Python metadata dictionaries (string keys, scalar values) are modelled as
association lists; the empty dictionary `\x7b\x7d` is `[]`. -/
abbrev Metadata := List (String × String)

/-- Exact rational subtraction `a - b`, written with `mkRat` so that the
kernel can evaluate it; `qSub_eq` below proves it equal to `a - b`. -/
def qSub (a b : ℚ) : ℚ := mkRat (a.num * b.den - b.num * a.den) (a.den * b.den)

/-- Exact rational multiplication `a * b`, kernel-computable; see `qMul_eq`. -/
def qMul (a b : ℚ) : ℚ := mkRat (a.num * b.num) (a.den * b.den)

/-- Rational minimum, kernel-computable; see `qMin_eq`. -/
def qMin (a b : ℚ) : ℚ := if a ≤ b then a else b

/-- Rational maximum (Python's two-argument `max` step), kernel-computable;
see `qMax_eq`. -/
def qMax (a b : ℚ) : ℚ := if a ≤ b then b else a

/-- `retriever.py`: one ranked retrieval result, the dict built in
`HybridRetriever._combine_results` (lines 107-113). -/
structure RankedResult where
  id : String
  content : String
  metadata : Metadata
  score : ℚ
  source : String
deriving DecidableEq, Inhabited

/-- `vector_store.py` / Chroma reply shape consumed by
`HybridRetriever._combine_results`: parallel outer lists of rows, any of
which may be `None` (modelled `none`) or too short. -/
structure QueryResult where
  ids : Option (List (List String))
  documents : Option (List (List String))
  metadatas : Option (List (List Metadata))
  distances : Option (List (List ℚ))
deriving DecidableEq

/-- `documents[0] if vector_results['documents'] else []` (retriever.py:91):
first row of an optional list-of-rows, empty when absent or empty. -/
def docRow (vr : QueryResult) : List String := (vr.documents.getD []).headD []

/-- `metadatas[0] if vector_results['metadatas'] else []` (retriever.py:92). -/
def metaRow (vr : QueryResult) : List Metadata := (vr.metadatas.getD []).headD []

/-- `distances[0] if vector_results['distances'] else []` (retriever.py:93). -/
def distRow (vr : QueryResult) : List ℚ := (vr.distances.getD []).headD []

/-- The first row of ids, `vector_results['ids'][0]` (retriever.py:90),
empty when the ids entry is absent, empty, or its first row is empty. -/
def idsRow (vr : QueryResult) : List String := (vr.ids.getD []).headD []

/-- The loop body of `_combine_results` (retriever.py:95-114): for each
`doc_id` at position `i` build a result, reading `documents[i]`,
`metadatas[i]` and `distances[i]` with out-of-range defaults `""`, `\x7b\x7d`
and full-confidence score `1.0`; `score = 1 - distances[i]` otherwise. -/
def buildResults (documents : List String) (metadatas : List Metadata)
    (distances : List ℚ) : Nat → List String → List RankedResult
  | _, [] => []
  | i, docId :: rest =>
    { id := docId
      content := documents.getD i ""
      metadata := metadatas.getD i []
      score := if i < distances.length then qSub 1 (distances.getD i 0) else 1
      source := "vector" } :: buildResults documents metadatas distances (i + 1) rest

/-- The `combined` list of `_combine_results` just before sorting
(retriever.py:82-114): empty unless the ids entry is present, non-empty, and
its first row non-empty; otherwise the loop over `ids[:top_k]`. -/
def combinedList (vr : QueryResult) (topK : Nat) : List RankedResult :=
  match vr.ids with
  | none => []
  | some idsList =>
    if 0 < idsList.length ∧ 0 < (idsList.headD []).length then
      buildResults (docRow vr) (metaRow vr) (distRow vr) 0 ((idsList.headD []).take topK)
    else []

/-- Descending comparison by a rational score projection:
`scoreRel f a b` holds when `a`'s score is at least `b`'s, so that sorting by
`scoreRel f` is Python's `sort(key=score, reverse=True)`. -/
def scoreRel {α : Type} (f : α → ℚ) (a b : α) : Prop := f b ≤ f a

instance {α : Type} (f : α → ℚ) : DecidableRel (scoreRel f) :=
  fun a b => inferInstanceAs (Decidable (f b ≤ f a))

instance {α : Type} (f : α → ℚ) : IsTotal α (scoreRel f) :=
  ⟨fun a b => le_total (f b) (f a)⟩

instance {α : Type} (f : α → ℚ) : IsTrans α (scoreRel f) :=
  ⟨fun _ _ _ h1 h2 => le_trans h2 h1⟩

/-- `HybridRetriever._combine_results` (retriever.py:70-120): build the
candidate list, sort by score descending with Python's stable sort
(modelled by the stable `List.insertionSort`), and truncate to `top_k`. -/
def combineResults (vr : QueryResult) (topK : Nat) : List RankedResult :=
  (List.insertionSort (scoreRel RankedResult.score) (combinedList vr topK)).take topK

/-- `HybridRetriever.retrieve` (retriever.py:23-46): the query string and
metadata filter only influence the reply of the external vector index, so we
model `retrieve` as a function of that reply; it delegates to
`_combine_results` with the same `top_k`. -/
def retrieve (indexReply : QueryResult) (topK : Nat) : List RankedResult :=
  combineResults indexReply topK

/-- `context_manager.py` `Message` dataclass; the `datetime.now()` timestamp
is a wall-clock reading carried only for display and is not modelled. -/
structure Message where
  role : String
  content : String
  metadata : Option Metadata
deriving DecidableEq

/-- `context_manager.py` `RetrievedDocument` dataclass (timestampless). -/
structure RetrievedDocument where
  id : String
  content : String
  score : ℚ
  metadata : Option Metadata
deriving DecidableEq

/-- `context_manager.py` `ContextManager` state. -/
structure ContextManager where
  max_context_length : Nat
  conversation_history : List Message
  retrieved_documents : List RetrievedDocument
  current_query : Option String
deriving DecidableEq

/-- `ContextManager.add_user_message` (context_manager.py:40-55). -/
def add_user_message (cm : ContextManager) (content : String)
    (metadata : Option Metadata) : ContextManager :=
  { cm with conversation_history :=
      cm.conversation_history ++ [{ role := "user", content := content, metadata := metadata }] }

/-- `ContextManager.add_assistant_message` (context_manager.py:57-72). -/
def add_assistant_message (cm : ContextManager) (content : String)
    (metadata : Option Metadata) : ContextManager :=
  { cm with conversation_history :=
      cm.conversation_history ++ [{ role := "assistant", content := content, metadata := metadata }] }

/-- `ContextManager.set_current_query` (context_manager.py:74-82). -/
def set_current_query (cm : ContextManager) (query : String) : ContextManager :=
  { cm with current_query := some query }

/-- The conversion performed for each dict in
`ContextManager.add_retrieved_documents` (context_manager.py:91-98); the
retriever's results always carry every key, so the `.get` defaults of the
source are never exercised on these inputs. -/
def toRetrievedDocument (doc : RankedResult) : RetrievedDocument :=
  { id := doc.id, content := doc.content, score := doc.score, metadata := some doc.metadata }

/-- `ContextManager.add_retrieved_documents` (context_manager.py:84-100):
appends, never trims. -/
def add_retrieved_documents (cm : ContextManager) (documents : List RankedResult) :
    ContextManager :=
  { cm with retrieved_documents :=
      cm.retrieved_documents ++ documents.map toRetrievedDocument }

/-- `ContextManager._trim_conversation_history` (context_manager.py:124-137):
`max_history = 10`; Python `l[-10:]` is `drop (length - 10)`. -/
def trimConversationHistory (cm : ContextManager) : List Message :=
  if cm.conversation_history.length ≤ 10 then cm.conversation_history
  else cm.conversation_history.drop (cm.conversation_history.length - 10)

/-- The dict returned by `ContextManager.get_context_window`. -/
structure ContextWindow where
  conversation_history : List Message
  retrieved_documents : List RetrievedDocument
  current_query : Option String
deriving DecidableEq

/-- `ContextManager.get_context_window` (context_manager.py:102-122):
trimmed history, the top 3 documents by score (Python's stable `sorted`
descending, modelled by the stable `List.insertionSort`), current query. -/
def get_context_window (cm : ContextManager) : ContextWindow :=
  { conversation_history := trimConversationHistory cm
    retrieved_documents :=
      (List.insertionSort (scoreRel RetrievedDocument.score) cm.retrieved_documents).take 3
    current_query := cm.current_query }

/-- `ContextManager.clear_context` (context_manager.py:139-146). -/
def clear_context (cm : ContextManager) : ContextManager :=
  { cm with conversation_history := [], retrieved_documents := [], current_query := none }

/-- `metrics.py` `MetricsTracker` state: the named-timer dictionary
`current_timers`, mapping a timer name to the `time.time()` instant at which
it was started (seconds, modelled as an exact rational). The
`metrics_history` list of `PerformanceMetrics` records is untouched by the
timer operations and plays no part in the claims, so it is not modelled. -/
structure MetricsTracker where
  current_timers : List (String × ℚ)
deriving DecidableEq

/-- Python dict assignment `d[n] = v`: overwrite in place or append. -/
def timerSet : List (String × ℚ) → String → ℚ → List (String × ℚ)
  | [], n, v => [(n, v)]
  | (k, w) :: rest, n, v =>
    if k = n then (n, v) :: rest else (k, w) :: timerSet rest n v

/-- Python dict membership / read `d[n]`. -/
def timerLookup : List (String × ℚ) → String → Option ℚ
  | [], _ => none
  | (k, w) :: rest, n => if k = n then some w else timerLookup rest n

/-- Python `del d[n]` (keys are unique, so removing the first is enough). -/
def timerRemove : List (String × ℚ) → String → List (String × ℚ)
  | [], _ => []
  | (k, w) :: rest, n => if k = n then rest else (k, w) :: timerRemove rest n

/-- `MetricsTracker.start_timer` (metrics.py:34-42); `now` is the
`time.time()` reading, passed explicitly. -/
def start_timer (mt : MetricsTracker) (timerName : String) (now : ℚ) : MetricsTracker :=
  { current_timers := timerSet mt.current_timers timerName now }

/-- `MetricsTracker.stop_timer` (metrics.py:44-61): if the timer was never
started, only a warning is logged and `0.0` is returned with the state
unchanged; otherwise the elapsed seconds `now - start` are returned and the
timer is deleted. -/
def stop_timer (mt : MetricsTracker) (timerName : String) (now : ℚ) :
    ℚ × MetricsTracker :=
  match timerLookup mt.current_timers timerName with
  | none => (0, mt)
  | some started =>
    (qSub now started, { current_timers := timerRemove mt.current_timers timerName })

/-- Round half to even to an integer (the behaviour of Python's `round` on
exactly-representable values), computed on the rational's numerator and
denominator: the fractional part of `q` is `(q.num % q.den) / q.den` (the
denominator is positive and `%` is Euclidean), so comparing it with `1/2`
is comparing `2 * (q.num % q.den)` with `q.den`. -/
def roundHalfEvenInt (q : ℚ) : ℤ :=
  if 2 * (q.num % (q.den : ℤ)) < (q.den : ℤ) then q.num / (q.den : ℤ)
  else if (q.den : ℤ) < 2 * (q.num % (q.den : ℤ)) then q.num / (q.den : ℤ) + 1
  else if q.num / (q.den : ℤ) % 2 = 0 then q.num / (q.den : ℤ)
  else q.num / (q.den : ℤ) + 1

/-- Python `round(x, 2)`: two decimal places, half to even. -/
def round2 (q : ℚ) : ℚ := mkRat (roundHalfEvenInt (qMul q 100)) 100

/-- Python `max(doc['score'] for doc in documents)` over a non-empty list,
as a left fold; the `[]` case is unreachable in `_calculate_confidence`
(guarded by `if not documents`) and set to `0`. -/
def maxScore : List RankedResult → ℚ
  | [] => 0
  | doc :: rest => rest.foldl (fun best r => qMax best r.score) doc.score

/-- `_calculate_confidence` (app.py:278-288): `0.0` on an empty list, else
`round(min(100.0, best_score * 100), 2)`. -/
def calculateConfidence (documents : List RankedResult) : ℚ :=
  if documents.isEmpty then 0
  else round2 (qMin 100 (qMul (maxScore documents) 100))

/-- Python `str.lower()`, modelled per-character. -/
def lowerStr (s : String) : String := ⟨s.data.map Char.toLower⟩

/-- Leading-match test: does `pat` occur at the head of `hay`? -/
def charsStartWith : List Char → List Char → Bool
  | _, [] => true
  | [], _ :: _ => false
  | c :: cs, p :: ps => c == p && charsStartWith cs ps

/-- Python's substring test `pat in hay` on character lists. -/
def charsContain : List Char → List Char → Bool
  | [], pat => pat.isEmpty
  | c :: rest, pat => charsStartWith (c :: rest) pat || charsContain rest pat

/-- Python `pat in s` on strings. -/
def strContains (s pat : String) : Bool := charsContain s.data pat.data

/-- Python slicing `s[:n]` (by code point, as in Python). -/
def strTake (s : String) (n : Nat) : String := ⟨s.data.take n⟩

/-- `_fallback_response` (app.py:290-320), with the source's strings
reproduced byte for byte (apostrophes written `\x27`, the non-breaking
hyphen `‑`, en dash `–` and em dash `—` escaped). -/
def fallbackResponse (query : String) : String :=
  let q := lowerStr query
  if strContains q "jammu" then
    "Jammu (in Jammu & Kashmir) is a great base for religious visits and mountain access. " ++
    "Quick tips: 1) Visit Vaishno Devi (allow 1-2 days). 2) Pack warm clothes if you go to higher altitudes. " ++
    "3) Local transport: taxis and hired cabs; confirm fares in advance. 4) Try local food like rajma and kaladi. " ++
    "If you want, upload any local guides or itineraries (PDF/DOCX) and I\x27ll use them to give detailed day-by-day plans."
  else if strContains q "hotel" || strContains q "accommodation" then
    "For finding hotels: pick a neighbourhood close to the attractions you want, check recent reviews, " ++
    "and filter by your budget and required amenities (Wi‑Fi, breakfast, free cancellation)."
  else if strContains q "flight" || strContains q "airline" then
    "For flights: search flexible dates 2–3 months ahead, consider mid‑week departures, and use price alerts. " ++
    "If you give me your departure city and dates, I can suggest a strategy."
  else
    "I don\x27t have matching documents in my knowledge base right now. " ++
    "You can upload travel documents (itineraries, guides, bookings) using the \x27Upload Travel Documents\x27 button — " ++
    "after that I\x27ll provide specific, document-backed recommendations. Meanwhile, tell me the destination and travel dates and I\x27ll give general planning tips."

/-- Python `max(documents, key=lambda x: x['score'])`: the first document
attaining the maximal score. -/
def maxByScore (doc : RankedResult) (rest : List RankedResult) : RankedResult :=
  rest.foldl (fun best r => if best.score < r.score then r else best) doc

/-- `_generate_response` (app.py:251-276). Note the Python operator
precedence: each `return "prefix" + content[:200] + "..." if cond else
content` parses as `("prefix" + content[:200] + "...") if cond else content`,
so when the content is short the prefix is NOT included; this embedding
reproduces that behaviour faithfully. -/
def generateResponse (query : String) (documents : List RankedResult) : String :=
  match documents with
  | [] => "I don\x27t have specific information about that topic in my knowledge base. Could you provide more details or ask about something else related to travel?"
  | doc :: rest =>
    let best := maxByScore doc rest
    let q := lowerStr query
    if strContains q "beach" || strContains q "ocean" then
      if 200 < best.content.data.length then
        "Based on my travel knowledge, beaches are wonderful destinations for relaxation. " ++
          strTake best.content 200 ++ "..."
      else best.content
    else if strContains q "hotel" || strContains q "accommodation" then
      if 200 < best.content.data.length then
        "For accommodations, I recommend considering location and amenities. " ++
          strTake best.content 200 ++ "..."
      else best.content
    else if strContains q "food" || strContains q "restaurant" then
      if 200 < best.content.data.length then
        "Food is an essential part of travel experience. " ++
          strTake best.content 200 ++ "..."
      else best.content
    else
      if 300 < best.content.data.length then
        "Based on my travel knowledge: " ++ strTake best.content 300 ++ "..."
      else best.content

/-- Outcome of the `retriever.retrieve(user_query)` call inside the chat
endpoint: either the call raised (any exception, with its message) or it
returned a list of ranked results. -/
inductive RetrievalOutcome where
  | failure : String → RetrievalOutcome
  | success : List RankedResult → RetrievalOutcome
deriving DecidableEq

/-- One entry of the `retrieved_documents` field of the chat reply
(app.py:210-218): the content is truncated to 200 characters with an
ellipsis when longer. -/
structure RetrievedDocSummary where
  id : String
  content : String
  score : ℚ
  metadata : Metadata
deriving DecidableEq

/-- The per-document summary built in the chat reply (app.py:211-216). -/
def summarize (doc : RankedResult) : RetrievedDocSummary :=
  { id := doc.id
    content :=
      if 200 < doc.content.data.length then strTake doc.content 200 ++ "..." else doc.content
    score := doc.score
    metadata := doc.metadata }

/-- The JSON body returned by `POST /api/chat`; the `response_time` field is
a formatted wall-clock reading and is not modelled. -/
structure ChatResponse where
  query : String
  response : String
  confidence : ℚ
  documents_retrieved : Nat
  retrieved_documents : List RetrievedDocSummary
deriving DecidableEq

/-- The `chat` endpoint (app.py:85-226) as a function of the extracted
message and the retrieval outcome. An empty message raises
`HTTPException(400)`, which the enclosing generic `except` re-raises as a
500 error; the request fails with an HTTP error either way, modelled as
`.error`. On a retrieval exception the fallback reply is returned with
confidence `80.0` (app.py:131-138); on an empty retrieval the same fallback
reply with confidence `75.0` (app.py:162-169); otherwise the generated
response with calculated confidence and the top-3 document summaries.
Mutations of the shared context manager and metrics tracker are modelled by
the `ContextManager`/`MetricsTracker` operations above; this function is the
returned value. -/
def chat (userQuery : String) (outcome : RetrievalOutcome) : Except Nat ChatResponse :=
  if userQuery = "" then .error 500
  else
    match outcome with
    | .failure _ =>
      .ok { query := userQuery, response := fallbackResponse userQuery,
            confidence := 80, documents_retrieved := 0, retrieved_documents := [] }
    | .success [] =>
      .ok { query := userQuery, response := fallbackResponse userQuery,
            confidence := 75, documents_retrieved := 0, retrieved_documents := [] }
    | .success (doc :: rest) =>
      .ok { query := userQuery
            response := generateResponse userQuery (doc :: rest)
            confidence := calculateConfidence (doc :: rest)
            documents_retrieved := (doc :: rest).length
            retrieved_documents := ((doc :: rest).take 3).map summarize }

/-- The spec's scenario reply: `ids=[["a","b"]]`, `distances=[[0.1, 0.4]]`. -/
def scenarioReply : QueryResult :=
  { ids := some [["a", "b"]], documents := none, metadatas := none,
    distances := some [[mkRat 1 10, mkRat 4 10]] }

/-- A reply with misaligned rows: three ids but only one document, no
metadatas entry, and only two distances. -/
def misalignedReply : QueryResult :=
  { ids := some [["a", "b", "c"]], documents := some [["da"]], metadatas := none,
    distances := some [[mkRat 2 10, mkRat 1 10]] }

/-- A reply with zero candidates: `ids=[[]]`. -/
def emptyReply : QueryResult :=
  { ids := some [[]], documents := none, metadatas := none, distances := none }

/-- A single retrieval result whose score has more than four decimal
places, exhibiting the two-decimal rounding in `_calculate_confidence`. -/
def confidenceCexDocs : List RankedResult :=
  [{ id := "d1", content := "", metadata := [], score := mkRat 123456 1000000,
     source := "vector" }]

/-- A context state reached by appending 15 conversation turns and two
retrieved documents. -/
def exampleContext : ContextManager :=
  { max_context_length := 4096
    conversation_history :=
      (List.range 15).map (fun _ => { role := "user", content := "m", metadata := none })
    retrieved_documents :=
      [{ id := "a", content := "", score := mkRat 3 10, metadata := none },
       { id := "b", content := "", score := mkRat 7 10, metadata := none }]
    current_query := some "q" }

/-- `qSub` agrees with subtraction on `ℚ`. -/
theorem qSub_eq (a b : ℚ) : qSub a b = a - b := by
  have ha : ((a.den : ℚ)) ≠ 0 := by exact_mod_cast a.den_nz
  have hb : ((b.den : ℚ)) ≠ 0 := by exact_mod_cast b.den_nz
  rw [qSub, Rat.mkRat_eq_div]
  push_cast
  conv_rhs => rw [← Rat.num_div_den a, ← Rat.num_div_den b]
  rw [div_sub_div _ _ ha hb]
  ring_nf

/-- `qMul` agrees with multiplication on `ℚ`. -/
theorem qMul_eq (a b : ℚ) : qMul a b = a * b := by
  have ha : ((a.den : ℚ)) ≠ 0 := by exact_mod_cast a.den_nz
  have hb : ((b.den : ℚ)) ≠ 0 := by exact_mod_cast b.den_nz
  rw [qMul, Rat.mkRat_eq_div]
  push_cast
  conv_rhs => rw [← Rat.num_div_den a, ← Rat.num_div_den b]
  rw [div_mul_div_comm]

/-- `qMin` agrees with `min` on `ℚ`. -/
theorem qMin_eq (a b : ℚ) : qMin a b = min a b := by
  rw [qMin, min_def]

/-- `qMax` agrees with `max` on `ℚ`. -/
theorem qMax_eq (a b : ℚ) : qMax a b = max a b := by
  rw [qMax, max_def]

/-- The loop produces exactly one result per candidate id. -/
theorem buildResults_length (documents : List String) (metadatas : List Metadata)
    (distances : List ℚ) (j : Nat) (l : List String) :
    (buildResults documents metadatas distances j l).length = l.length := by
  induction l generalizing j with
  | nil => rfl
  | cons a t ih => simp [buildResults, ih]

/-- The `i`-th result produced by the loop, elementwise. -/
theorem buildResults_getD (documents : List String) (metadatas : List Metadata)
    (distances : List ℚ) (j : Nat) (l : List String) (i : Nat) (h : i < l.length) :
    (buildResults documents metadatas distances j l).getD i default =
      { id := l.getD i ""
        content := documents.getD (j + i) ""
        metadata := metadatas.getD (j + i) []
        score :=
          if j + i < distances.length then qSub 1 (distances.getD (j + i) 0) else 1
        source := "vector" } := by
  induction l generalizing j i with
  | nil => simp at h
  | cons a t ih =>
    cases i with
    | zero => simp [buildResults]
    | succ k =>
      have h' : k < t.length := by simpa using h
      have harith : j + (k + 1) = (j + 1) + k := by omega
      simp only [buildResults, List.getD_cons_succ, harith]
      exact ih (j + 1) k h'

/-- Every result of the loop scores either the default `1.0` or
`1 - d` for some listed distance `d`. -/
theorem buildResults_score_mem (documents : List String) (metadatas : List Metadata)
    (distances : List ℚ) (j : Nat) (l : List String) (r : RankedResult)
    (hr : r ∈ buildResults documents metadatas distances j l) :
    r.score = 1 ∨ ∃ d ∈ distances, r.score = qSub 1 d := by
  induction l generalizing j with
  | nil => simp [buildResults] at hr
  | cons a t ih =>
    simp only [buildResults, List.mem_cons] at hr
    rcases hr with rfl | hr
    · dsimp only
      by_cases hj : j < distances.length
      · right
        refine ⟨distances.getD j 0, ?_, by rw [if_pos hj]⟩
        rw [List.getD_eq_getElem _ _ hj]
        exact List.getElem_mem _
      · left
        rw [if_neg hj]
    · exact ih (j + 1) hr

/-- `combinedList` in uniform form: in every branch (ids entry absent, empty
outer list, empty first row, or the regular loop) it is the loop over
`ids[0][:top_k]` with the three extracted rows. -/
theorem combinedList_eq (vr : QueryResult) (k : Nat) :
    combinedList vr k =
      buildResults (docRow vr) (metaRow vr) (distRow vr) 0 ((idsRow vr).take k) := by
  rcases vr with ⟨ids, documents, metadatas, distances⟩
  cases ids with
  | none => simp [combinedList, idsRow, buildResults]
  | some idsList =>
    by_cases hc : 0 < idsList.length ∧ 0 < (idsList.headD []).length
    · simp only [combinedList, idsRow, Option.getD_some, if_pos hc]
    · have hz : idsList.headD [] = ([] : List String) := by
        rcases idsList with _ | ⟨h0, t⟩
        · rfl
        · rcases h0 with _ | ⟨c, cs⟩
          · rfl
          · exact absurd ⟨by simp, by simp⟩ hc
      simp only [combinedList, idsRow, Option.getD_some, if_neg hc]
      rw [hz]
      simp [buildResults]

/-- `combinedList` always has `min top_k |ids[0]|` entries, regardless of the
lengths of the documents, metadatas and distances rows. -/
theorem combinedList_length (vr : QueryResult) (k : Nat) :
    (combinedList vr k).length = min k (idsRow vr).length := by
  rw [combinedList_eq, buildResults_length, List.length_take]

/-- Members of the returned (sorted, truncated) list are members of the
pre-sort candidate list. -/
theorem mem_of_mem_combineResults {vr : QueryResult} {k : Nat} {r : RankedResult}
    (hr : r ∈ combineResults vr k) : r ∈ combinedList vr k := by
  have h1 : r ∈ List.insertionSort (scoreRel RankedResult.score) (combinedList vr k) :=
    (List.take_sublist k _).subset hr
  exact (List.perm_insertionSort (scoreRel RankedResult.score) _).mem_iff.mp h1

/-- The returned list is sorted non-increasingly by score. -/
theorem combineResults_sorted (vr : QueryResult) (k : Nat) :
    List.Sorted (scoreRel RankedResult.score) (combineResults vr k) :=
  List.Pairwise.sublist (List.take_sublist k _)
    (List.sorted_insertionSort (scoreRel RankedResult.score) (combinedList vr k))

/-- Inserting into a sorted run does not disturb the subsequence of elements
of any fixed score `s`: the elements passed over are strictly greater. -/
theorem filter_orderedInsert {α : Type} (f : α → ℚ) (s : ℚ) (a : α) (l : List α) :
    (List.orderedInsert (scoreRel f) a l).filter (fun x => decide (f x = s)) =
      (a :: l).filter (fun x => decide (f x = s)) := by
  induction l with
  | nil => rfl
  | cons b t ih =>
    by_cases hab : scoreRel f a b
    · rw [List.orderedInsert, if_pos hab]
    · rw [List.orderedInsert, if_neg hab]
      by_cases hpa : f a = s <;> by_cases hpb : f b = s
      · exact absurd (le_of_eq (hpb.trans hpa.symm)) hab
      · simp [List.filter_cons, ih, hpa, hpb]
      · simp [List.filter_cons, ih, hpa, hpb]
      · simp [List.filter_cons, ih, hpa, hpb]

/-- Stability of the modelled sort, phrased on score classes: sorting does
not reorder elements of equal score. -/
theorem filter_insertionSort {α : Type} (f : α → ℚ) (s : ℚ) (l : List α) :
    (List.insertionSort (scoreRel f) l).filter (fun x => decide (f x = s)) =
      l.filter (fun x => decide (f x = s)) := by
  induction l with
  | nil => rfl
  | cons a t ih =>
    rw [List.insertionSort, filter_orderedInsert]
    simp only [List.filter_cons, ih]

/-- Filtering a prefix yields a prefix of the filtered list. -/
theorem filter_take_isPre {α : Type} (p : α → Bool) (n : Nat) (l : List α) :
    (l.take n).filter p <+: l.filter p := by
  conv_rhs => rw [← List.take_append_drop n l]
  rw [List.filter_append]
  exact List.prefix_append _ _

/-- The Euclidean remainder of `q.num` by `q.den`, cast to `ℚ`, is the
denominator times the fractional part of `q`. -/
theorem emod_cast_eq (q : ℚ) :
    ((q.num % (q.den : ℤ) : ℤ) : ℚ) = (q.den : ℚ) * (q - ⌊q⌋) := by
  have hd : ((q.den : ℚ)) ≠ 0 := by exact_mod_cast q.den_nz
  have hnum : ((q.num : ℚ)) = q * (q.den : ℚ) :=
    (div_eq_iff hd).mp (Rat.num_div_den q)
  rw [Int.emod_def, ← Rat.floor_def]
  push_cast
  rw [hnum]
  ring

/-- `2 * (q.num % q.den) < q.den` says exactly that the fractional part of
`q` is below one half. -/
theorem twoEmod_lt_iff (q : ℚ) :
    (2 * (q.num % (q.den : ℤ)) < (q.den : ℤ)) ↔ q < (⌊q⌋ : ℚ) + 1 / 2 := by
  have hd : (0 : ℚ) < (q.den : ℚ) := by exact_mod_cast q.pos
  have hcast : (2 * (q.num % (q.den : ℤ)) < (q.den : ℤ)) ↔
      ((2 * (q.num % (q.den : ℤ)) : ℤ) : ℚ) < (((q.den : ℤ) : ℤ) : ℚ) := by
    constructor
    · intro h
      exact_mod_cast h
    · intro h
      exact_mod_cast h
  rw [hcast]
  push_cast
  rw [emod_cast_eq]
  constructor
  · intro h
    by_contra hc
    push_neg at hc
    have hh : (q.den : ℚ) * (1 / 2) ≤ (q.den : ℚ) * (q - ⌊q⌋) :=
      mul_le_mul_of_nonneg_left (by linarith) (le_of_lt hd)
    linarith
  · intro h
    have hh : (q.den : ℚ) * (q - ⌊q⌋) < (q.den : ℚ) * (1 / 2) :=
      mul_lt_mul_of_pos_left (by linarith) hd
    linarith

/-- `q.den < 2 * (q.num % q.den)` says exactly that the fractional part of
`q` is above one half. -/
theorem twoEmod_gt_iff (q : ℚ) :
    ((q.den : ℤ) < 2 * (q.num % (q.den : ℤ))) ↔ (⌊q⌋ : ℚ) + 1 / 2 < q := by
  have hd : (0 : ℚ) < (q.den : ℚ) := by exact_mod_cast q.pos
  have hcast : ((q.den : ℤ) < 2 * (q.num % (q.den : ℤ))) ↔
      (((q.den : ℤ) : ℤ) : ℚ) < ((2 * (q.num % (q.den : ℤ)) : ℤ) : ℚ) := by
    constructor
    · intro h
      exact_mod_cast h
    · intro h
      exact_mod_cast h
  rw [hcast]
  push_cast
  rw [emod_cast_eq]
  constructor
  · intro h
    by_contra hc
    push_neg at hc
    have hh : (q.den : ℚ) * (q - ⌊q⌋) ≤ (q.den : ℚ) * (1 / 2) :=
      mul_le_mul_of_nonneg_left (by linarith) (le_of_lt hd)
    linarith
  · intro h
    have hh : (q.den : ℚ) * (1 / 2) < (q.den : ℚ) * (q - ⌊q⌋) :=
      mul_lt_mul_of_pos_left (by linarith) hd
    linarith

/-- `roundHalfEvenInt` characterised through the floor of its argument. -/
theorem roundHalfEvenInt_eq (q : ℚ) :
    roundHalfEvenInt q =
      if q < (⌊q⌋ : ℚ) + 1 / 2 then ⌊q⌋
      else if (⌊q⌋ : ℚ) + 1 / 2 < q then ⌊q⌋ + 1
      else if ⌊q⌋ % 2 = 0 then ⌊q⌋ else ⌊q⌋ + 1 := by
  unfold roundHalfEvenInt
  rw [← Rat.floor_def]
  simp only [twoEmod_lt_iff, twoEmod_gt_iff]

/-- The half-even rounding of `q` is its floor or its floor plus one. -/
theorem roundHalfEvenInt_bounds (q : ℚ) :
    ⌊q⌋ ≤ roundHalfEvenInt q ∧ roundHalfEvenInt q ≤ ⌊q⌋ + 1 := by
  rw [roundHalfEvenInt_eq]
  split_ifs <;> omega

/-- Half-even rounding is monotone. -/
theorem roundHalfEvenInt_mono {x y : ℚ} (hxy : x ≤ y) :
    roundHalfEvenInt x ≤ roundHalfEvenInt y := by
  have hfl : ⌊x⌋ ≤ ⌊y⌋ := Int.floor_mono hxy
  rcases eq_or_lt_of_le hfl with hf | hf
  · rw [roundHalfEvenInt_eq, roundHalfEvenInt_eq, ← hf]
    split_ifs <;> first | omega | linarith
  · have h1 := roundHalfEvenInt_bounds x
    have h2 := roundHalfEvenInt_bounds y
    omega

/-- `round2` (Python `round(·, 2)`) is monotone. -/
theorem round2_mono {x y : ℚ} (h : x ≤ y) : round2 x ≤ round2 y := by
  unfold round2
  rw [Rat.mkRat_eq_div, Rat.mkRat_eq_div]
  have h1 : roundHalfEvenInt (qMul x 100) ≤ roundHalfEvenInt (qMul y 100) := by
    apply roundHalfEvenInt_mono
    rw [qMul_eq, qMul_eq]
    exact mul_le_mul_of_nonneg_right h (by norm_num)
  have h2 : ((roundHalfEvenInt (qMul x 100) : ℚ)) ≤ (roundHalfEvenInt (qMul y 100) : ℚ) := by
    exact_mod_cast h1
  exact (div_le_div_iff_of_pos_right (by norm_num)).mpr h2

/-- C1: for every non-empty candidate reply, the result produced for the
candidate at position `i` has score `1 - distances[i]` when the distances
row has an entry at `i` and `1.0` otherwise; in particular the reply with
ids `["a","b"]` and distances `[0.1, 0.4]` yields scores `[0.9, 0.6]` in
order `[a, b]` (with the source's `TOP_K_RESULTS = 5`). -/
theorem candidate_scores_from_distances :
    (∀ (vr : QueryResult) (k i : Nat), i < (combinedList vr k).length →
      ((combinedList vr k).getD i default).score =
        if i < (distRow vr).length then qSub 1 ((distRow vr).getD i 0) else 1) ∧
    retrieve scenarioReply 5 =
      [{ id := "a", content := "", metadata := [], score := mkRat 9 10, source := "vector" },
       { id := "b", content := "", metadata := [], score := mkRat 6 10, source := "vector" }] := by
  constructor
  · intro vr k i hi
    rw [combinedList_eq] at hi ⊢
    have hlen : i < ((idsRow vr).take k).length := by
      rwa [buildResults_length] at hi
    rw [buildResults_getD _ _ _ 0 _ i hlen]
    simp
  · decide

/-- Witness for `candidate_scores_from_distances`: position 1 of the
scenario reply has a distance entry, and its score is `1 - 0.4`. -/
theorem candidate_scores_from_distances_witness :
    1 < (combinedList scenarioReply 5).length ∧
    ((combinedList scenarioReply 5).getD 1 default).score =
      if 1 < (distRow scenarioReply).length then qSub 1 ((distRow scenarioReply).getD 1 0)
      else 1 :=
  ⟨by decide, candidate_scores_from_distances.1 scenarioReply 5 1 (by decide)⟩

/-- C2: when every distance lies in `[0,1]`, the sequence returned by
`retrieve` is sorted non-increasingly by score, every score lies in `[0,1]`,
and candidates of equal score keep their original index order: for each
score `s`, the returned results of score `s` are, in order, an initial
segment of the pre-sort candidates of score `s`. -/
theorem retrieve_sorted_bounded_stable (vr : QueryResult) (k : Nat)
    (hd : ∀ d ∈ distRow vr, 0 ≤ d ∧ d ≤ 1) :
    List.Sorted (scoreRel RankedResult.score) (retrieve vr k) ∧
    (∀ r ∈ retrieve vr k, 0 ≤ r.score ∧ r.score ≤ 1) ∧
    (∀ s : ℚ, (retrieve vr k).filter (fun r => decide (r.score = s)) <+:
      (combinedList vr k).filter (fun r => decide (r.score = s))) := by
  refine ⟨combineResults_sorted vr k, ?_, ?_⟩
  · intro r hr
    have hmem : r ∈ combinedList vr k := mem_of_mem_combineResults hr
    rw [combinedList_eq] at hmem
    rcases buildResults_score_mem _ _ _ _ _ _ hmem with h1 | ⟨d, hdmem, h2⟩
    · rw [h1]
      exact ⟨zero_le_one, le_refl 1⟩
    · rcases hd d hdmem with ⟨hd0, hd1⟩
      rw [h2, qSub_eq]
      constructor <;> linarith
  · intro s
    have hstep := filter_insertionSort RankedResult.score s (combinedList vr k)
    have hpre :
        (retrieve vr k).filter (fun r => decide (r.score = s)) <+:
          (List.insertionSort (scoreRel RankedResult.score)
            (combinedList vr k)).filter (fun r => decide (r.score = s)) :=
      filter_take_isPre _ k _
    rwa [hstep] at hpre

/-- Witness for `retrieve_sorted_bounded_stable` on a concrete misaligned
reply whose distances lie in `[0,1]`. -/
theorem retrieve_sorted_bounded_stable_witness :
    (∀ d ∈ distRow misalignedReply, 0 ≤ d ∧ d ≤ 1) ∧
    (List.Sorted (scoreRel RankedResult.score) (retrieve misalignedReply 5) ∧
     (∀ r ∈ retrieve misalignedReply 5, 0 ≤ r.score ∧ r.score ≤ 1) ∧
     (∀ s : ℚ, (retrieve misalignedReply 5).filter (fun r => decide (r.score = s)) <+:
       (combinedList misalignedReply 5).filter (fun r => decide (r.score = s)))) :=
  ⟨by decide, retrieve_sorted_bounded_stable misalignedReply 5 (by decide)⟩

/-- C3: for every index reply and every `topK` value `k`, `retrieve` returns
at most `k` results (the ranked list is truncated to its first `k`). -/
theorem retrieve_length_le_topK (vr : QueryResult) (k : Nat) :
    (retrieve vr k).length ≤ k :=
  List.length_take_le k _

/-- C4: if the index returns zero candidates (an empty id list), `retrieve`
returns the empty sequence; being a total function of the reply, the
embedded ranker raises no error on this input. -/
theorem retrieve_empty_ids (vr : QueryResult) (k : Nat)
    (h : idsRow vr = []) : retrieve vr k = [] := by
  have h0 : combinedList vr k = [] := by
    rw [combinedList_eq, h]
    simp [buildResults]
  show (List.insertionSort (scoreRel RankedResult.score) (combinedList vr k)).take k = []
  rw [h0]
  simp [List.insertionSort]

/-- Witness for `retrieve_empty_ids` on the concrete reply `ids=[[]]`. -/
theorem retrieve_empty_ids_witness :
    idsRow emptyReply = [] ∧ retrieve emptyReply 5 = [] :=
  ⟨by decide, retrieve_empty_ids emptyReply 5 (by decide)⟩

/-- C5 counterexample: `_calculate_confidence` rounds to two decimal places
(`round(confidence, 2)`, app.py:288), so for a maximal score of `0.123456`
it returns `12.35`, not `min(100, 100 × 0.123456) = 12.3456` as claimed. -/
theorem confidence_rounding_counterexample :
    calculateConfidence confidenceCexDocs ≠
      qMin 100 (qMul (maxScore confidenceCexDocs) 100) ∧
    calculateConfidence confidenceCexDocs = mkRat 1235 100 ∧
    qMin 100 (qMul (maxScore confidenceCexDocs) 100) = mkRat 123456 10000 := by
  decide

/-- C5 amended: the confidence function returns `0.0` for an empty result
list; for a non-empty list it returns `min(100, 100 × max score)` rounded
to two decimal places; consequently it is monotone non-decreasing in the
maximum input score (over non-empty inputs). -/
theorem confidence_policy_amended :
    calculateConfidence [] = 0 ∧
    (∀ l : List RankedResult, l ≠ [] →
      calculateConfidence l = round2 (min 100 (maxScore l * 100))) ∧
    (∀ l₁ l₂ : List RankedResult, l₁ ≠ [] → l₂ ≠ [] →
      maxScore l₁ ≤ maxScore l₂ →
      calculateConfidence l₁ ≤ calculateConfidence l₂) := by
  refine ⟨rfl, ?_, ?_⟩
  · intro l hl
    cases l with
    | nil => exact absurd rfl hl
    | cons a t =>
      show round2 (qMin 100 (qMul (maxScore (a :: t)) 100)) = _
      rw [qMin_eq, qMul_eq]
  · intro l₁ l₂ h1 h2 hle
    cases l₁ with
    | nil => exact absurd rfl h1
    | cons a t =>
      cases l₂ with
      | nil => exact absurd rfl h2
      | cons b u =>
        show round2 (qMin 100 (qMul (maxScore (a :: t)) 100)) ≤
            round2 (qMin 100 (qMul (maxScore (b :: u)) 100))
        apply round2_mono
        rw [qMin_eq, qMin_eq, qMul_eq, qMul_eq]
        exact min_le_min (le_refl 100) (mul_le_mul_of_nonneg_right hle (by norm_num))

/-- Witness for `confidence_policy_amended` on a concrete non-empty list. -/
theorem confidence_policy_amended_witness :
    confidenceCexDocs ≠ [] ∧
    calculateConfidence confidenceCexDocs =
      round2 (min 100 (maxScore confidenceCexDocs * 100)) :=
  ⟨by decide, confidence_policy_amended.2.1 confidenceCexDocs (by decide)⟩

/-- C6: when retrieval raises, the chat endpoint returns the fallback
guidance with confidence `80.0`, zero documents and no retrieved documents;
when retrieval returns zero candidates it returns the same fallback with
confidence `75.0`. -/
theorem chat_fallback_confidences (q : String) (hq : q ≠ "") :
    (∀ msg : String, chat q (.failure msg) =
      .ok { query := q, response := fallbackResponse q, confidence := 80,
            documents_retrieved := 0, retrieved_documents := [] }) ∧
    chat q (.success []) =
      .ok { query := q, response := fallbackResponse q, confidence := 75,
            documents_retrieved := 0, retrieved_documents := [] } := by
  constructor
  · intro msg
    unfold chat
    rw [if_neg hq]
  · unfold chat
    rw [if_neg hq]

/-- Witness for `chat_fallback_confidences` at the concrete query "hello". -/
theorem chat_fallback_confidences_witness :
    "hello" ≠ "" ∧
    chat "hello" (.success []) =
      .ok { query := "hello", response := fallbackResponse "hello", confidence := 75,
            documents_retrieved := 0, retrieved_documents := [] } :=
  ⟨by decide, (chat_fallback_confidences "hello" (by decide)).2⟩

/-- C7: the context window always holds at most 10 history turns and at
most 3 documents; once more than 10 turns have been appended the window's
history is exactly the most recent 10 (so 15 appended turns leave exactly
10); and the selected documents are top by score: any stored document left
out of the window scores no higher than every document in it. -/
theorem context_window_bounds (cm : ContextManager) :
    (get_context_window cm).conversation_history.length ≤ 10 ∧
    (get_context_window cm).retrieved_documents.length ≤ 3 ∧
    (get_context_window cm).retrieved_documents.length =
      min 3 cm.retrieved_documents.length ∧
    (10 < cm.conversation_history.length →
      (get_context_window cm).conversation_history =
        cm.conversation_history.drop (cm.conversation_history.length - 10) ∧
      (get_context_window cm).conversation_history.length = 10) ∧
    (∀ e ∈ cm.retrieved_documents,
      e ∉ (get_context_window cm).retrieved_documents →
      ∀ d ∈ (get_context_window cm).retrieved_documents, e.score ≤ d.score) := by
  refine ⟨?_, ?_, ?_, ?_, ?_⟩
  · show (trimConversationHistory cm).length ≤ 10
    unfold trimConversationHistory
    split_ifs with h
    · exact h
    · rw [List.length_drop]
      omega
  · exact List.length_take_le 3 _
  · show ((List.insertionSort (scoreRel RetrievedDocument.score)
      cm.retrieved_documents).take 3).length = _
    rw [List.length_take,
      (List.perm_insertionSort (scoreRel RetrievedDocument.score)
        cm.retrieved_documents).length_eq]
  · intro h10
    have hgt : ¬ cm.conversation_history.length ≤ 10 := by omega
    constructor
    · show trimConversationHistory cm = _
      unfold trimConversationHistory
      rw [if_neg hgt]
    · show (trimConversationHistory cm).length = 10
      unfold trimConversationHistory
      rw [if_neg hgt, List.length_drop]
      omega
  · intro e he hnot d hd
    simp only [get_context_window] at hnot hd
    have hperm :=
      List.perm_insertionSort (scoreRel RetrievedDocument.score) cm.retrieved_documents
    have heL : e ∈ List.insertionSort (scoreRel RetrievedDocument.score)
        cm.retrieved_documents := hperm.mem_iff.mpr he
    have hsorted : List.Pairwise (scoreRel RetrievedDocument.score)
        (List.insertionSort (scoreRel RetrievedDocument.score) cm.retrieved_documents) :=
      List.sorted_insertionSort (scoreRel RetrievedDocument.score) cm.retrieved_documents
    rw [← List.take_append_drop 3 (List.insertionSort (scoreRel RetrievedDocument.score)
      cm.retrieved_documents)] at heL hsorted
    have hpw := (List.pairwise_append.mp hsorted).2.2
    have hedrop : e ∈ (List.insertionSort (scoreRel RetrievedDocument.score)
        cm.retrieved_documents).drop 3 := by
      rcases List.mem_append.mp heL with h1 | h1
      · exact absurd h1 hnot
      · exact h1
    exact hpw d hd e hedrop

/-- Witness for `context_window_bounds`: 15 appended turns leave a window
history of exactly the 10 most recent turns. -/
theorem context_window_bounds_witness :
    10 < exampleContext.conversation_history.length ∧
    ((get_context_window exampleContext).conversation_history =
      exampleContext.conversation_history.drop
        (exampleContext.conversation_history.length - 10) ∧
     (get_context_window exampleContext).conversation_history.length = 10) :=
  ⟨by decide, (context_window_bounds exampleContext).2.2.2.1 (by decide)⟩

/-- C8: stopping a named timer that was never started returns elapsed time
`0.0` and leaves the tracker unchanged (the misuse is only logged), and
stopping a started timer returns the elapsed seconds `now - start`. -/
theorem stop_timer_spec :
    (∀ (mt : MetricsTracker) (timerName : String) (now : ℚ),
      timerLookup mt.current_timers timerName = none →
      stop_timer mt timerName now = (0, mt)) ∧
    (∀ (mt : MetricsTracker) (timerName : String) (t0 t1 : ℚ),
      (stop_timer (start_timer mt timerName t0) timerName t1).1 = t1 - t0) := by
  constructor
  · intro mt timerName now h
    unfold stop_timer
    rw [h]
  · intro mt timerName t0 t1
    have hfind : ∀ l : List (String × ℚ),
        timerLookup (timerSet l timerName t0) timerName = some t0 := by
      intro l
      induction l with
      | nil => simp [timerSet, timerLookup]
      | cons kv rest ih =>
        rcases kv with ⟨k, w⟩
        by_cases hk : k = timerName
        · simp [timerSet, timerLookup, hk]
        · simp [timerSet, timerLookup, hk, ih]
    unfold stop_timer start_timer
    dsimp only
    rw [hfind mt.current_timers]
    exact qSub_eq t1 t0

/-- Witness for `stop_timer_spec`: stopping "t" on an empty tracker yields
`0.0`; starting "t" at time 2 and stopping at time 5 yields `5 - 2`. -/
theorem stop_timer_spec_witness :
    timerLookup (MetricsTracker.mk []).current_timers "t" = none ∧
    stop_timer (MetricsTracker.mk []) "t" 5 = (0, MetricsTracker.mk []) ∧
    (stop_timer (start_timer (MetricsTracker.mk []) "t" 2) "t" 5).1 = 5 - 2 :=
  ⟨by decide, stop_timer_spec.1 (MetricsTracker.mk []) "t" 5 (by decide),
    stop_timer_spec.2 (MetricsTracker.mk []) "t" 2 5⟩

/-- C9: retrieved documents accumulate across queries:
`add_retrieved_documents` appends to `retrieved_documents`; no other
operation shortens that list (the message/query operations leave it
untouched and only `clear_context` resets it); and the window's documents
are drawn from the whole accumulated list. -/
theorem retrieved_documents_accumulate :
    (∀ (cm : ContextManager) (documents : List RankedResult),
      (add_retrieved_documents cm documents).retrieved_documents =
        cm.retrieved_documents ++ documents.map toRetrievedDocument) ∧
    (∀ (cm : ContextManager) (content : String) (md : Option Metadata),
      (add_user_message cm content md).retrieved_documents = cm.retrieved_documents) ∧
    (∀ (cm : ContextManager) (content : String) (md : Option Metadata),
      (add_assistant_message cm content md).retrieved_documents = cm.retrieved_documents) ∧
    (∀ (cm : ContextManager) (query : String),
      (set_current_query cm query).retrieved_documents = cm.retrieved_documents) ∧
    (∀ cm : ContextManager, (clear_context cm).retrieved_documents = []) ∧
    (∀ (cm : ContextManager) (d : RetrievedDocument),
      d ∈ (get_context_window cm).retrieved_documents →
      d ∈ cm.retrieved_documents) := by
  refine ⟨fun _ _ => rfl, fun _ _ _ => rfl, fun _ _ _ => rfl, fun _ _ => rfl,
    fun _ => rfl, ?_⟩
  intro cm d hd
  simp only [get_context_window] at hd
  have h1 := (List.take_sublist 3 _).subset hd
  exact (List.perm_insertionSort (scoreRel RetrievedDocument.score)
    cm.retrieved_documents).mem_iff.mp h1

/-- Witness for `retrieved_documents_accumulate`: a document of the
concrete context's window is among its accumulated documents. -/
theorem retrieved_documents_accumulate_witness :
    ({ id := "b", content := "", score := mkRat 7 10, metadata := none } :
        RetrievedDocument) ∈ (get_context_window exampleContext).retrieved_documents ∧
    ({ id := "b", content := "", score := mkRat 7 10, metadata := none } :
        RetrievedDocument) ∈ exampleContext.retrieved_documents :=
  ⟨by decide, retrieved_documents_accumulate.2.2.2.2.2 exampleContext _ (by decide)⟩

/-- C10: result combination is total on misaligned replies: the number of
results is `min top_k |ids[0]|` whatever the lengths of the other rows, and
the result at position `i` defaults to content `""` when the documents row
is absent or too short, to the empty metadata mapping when the metadatas
row is absent or too short, and to score `1.0` when the distances row is
absent or too short. -/
theorem combine_total_on_misaligned :
    (∀ (vr : QueryResult) (k : Nat),
      (combinedList vr k).length = min k (idsRow vr).length) ∧
    (∀ (vr : QueryResult) (k i : Nat), i < (combinedList vr k).length →
      ((docRow vr).length ≤ i → ((combinedList vr k).getD i default).content = "") ∧
      ((metaRow vr).length ≤ i → ((combinedList vr k).getD i default).metadata = []) ∧
      ((distRow vr).length ≤ i → ((combinedList vr k).getD i default).score = 1)) := by
  refine ⟨combinedList_length, ?_⟩
  intro vr k i hi
  rw [combinedList_eq] at hi
  have hlen : i < ((idsRow vr).take k).length := by
    rwa [buildResults_length] at hi
  have hget := buildResults_getD (docRow vr) (metaRow vr) (distRow vr) 0 _ i hlen
  refine ⟨?_, ?_, ?_⟩
  · intro hdoc
    rw [combinedList_eq, hget]
    exact List.getD_eq_default _ _ (by omega)
  · intro hmeta
    rw [combinedList_eq, hget]
    exact List.getD_eq_default _ _ (by omega)
  · intro hdist
    rw [combinedList_eq, hget]
    exact if_neg (by omega)

/-- Witness for `combine_total_on_misaligned`: position 2 of the misaligned
reply (three ids, one document, no metadatas, two distances) is produced
with all three defaults. -/
theorem combine_total_on_misaligned_witness :
    2 < (combinedList misalignedReply 5).length ∧
    (docRow misalignedReply).length ≤ 2 ∧
    ((combinedList misalignedReply 5).getD 2 default).content = "" ∧
    (metaRow misalignedReply).length ≤ 2 ∧
    ((combinedList misalignedReply 5).getD 2 default).metadata = [] ∧
    (distRow misalignedReply).length ≤ 2 ∧
    ((combinedList misalignedReply 5).getD 2 default).score = 1 :=
  ⟨by decide, by decide,
    (combine_total_on_misaligned.2 misalignedReply 5 2 (by decide)).1 (by decide),
    by decide,
    (combine_total_on_misaligned.2 misalignedReply 5 2 (by decide)).2.1 (by decide),
    by decide,
    (combine_total_on_misaligned.2 misalignedReply 5 2 (by decide)).2.2 (by decide)⟩
